import Mathlib

/-!
Shallow embedding of the asynchronous download-job subsystem implemented in
src/src/index.ts: the job store, the submission route, the worker body with
its periodic progress ticks, the availability probe, the presigned-URL
issuer and the status route.  External effects are made explicit: the clock
becomes natural-number timestamps passed as parameters, randomness and S3
responses become oracle parameters, and the job store becomes an
association list that is updated by consing, so the list also records the
full write history of every job (newest entry first).
-/

namespace Delineate

/-- Job status enum, from the TS union type
queued | processing | completed | failed. -/
inductive JobStatus where
  | queued
  | processing
  | completed
  | failed
deriving DecidableEq

/-- The JobResult interface: one stored job record.  ISO timestamp strings
are modelled as natural numbers; byte counts and durations as naturals. -/
structure JobResult where
  file_id : Int
  status : JobStatus
  progress : Nat
  downloadUrl : Option String
  size : Option Nat
  processingTimeMs : Option Nat
  message : String
  createdAt : Nat
  updatedAt : Nat
deriving DecidableEq

/-- The job store (Redis keyspace or the in-memory Map), as an association
list from jobId to record.  Lookups take the newest binding, so the list
doubles as the write history of each job. -/
abbrev Store := List (String × JobResult)

/-- getJobStatus: read the current record for a jobId, or none. -/
def getJob (s : Store) (jobId : String) : Option JobResult :=
  (s.find? (fun p => p.1 == jobId)).map (fun p => p.2)

/-- setJobStatus: full-record overwrite for a jobId. -/
def setJob (s : Store) (jobId : String) (r : JobResult) : Store :=
  (jobId, r) :: s

/-- The write history of one job, newest first.  Every record ever passed
to setJob for this jobId appears here. -/
def writes (s : Store) (jobId : String) : List JobResult :=
  (s.filter (fun p => p.1 == jobId)).map (fun p => p.2)

/-- Environment: whether S3_BUCKET_NAME is configured (empty string means
mock mode throughout the TS code). -/
structure S3Env where
  bucketConfigured : Bool
deriving DecidableEq

/-- Oracle for the external effects of one worker run: the HeadObject
outcome in real mode (none models the catch branch, some len models a
successful response with optional ContentLength), the getSignedUrl outcome
in real mode (none models the catch branch returning null), the value of
Math.floor(Math.random() * 10000000) used for the mock size, and the
crypto.randomUUID token used for the mock URL. -/
structure S3Oracle where
  headResult : Option (Option Nat)
  signResult : Option String
  sizeRand : Nat
  urlToken : String
deriving DecidableEq

/-- The exponential notation the ECMAScript ToString algorithm uses for an
integer value of 10^21 or more: significand digits with trailing zeros
removed, rendered as s[0] then a point and the remaining digits when there
are any, then e+ and the exponent (one less than the digit count).  The
significand is taken as the exact digit string of the integer, which
matches the program on values whose decimal literal round-trips through a
float (such as 1e21 or 1.5e21); shortest-round-trip rounding of other
huge magnitudes is float behaviour outside the rational input model. -/
def jsExpNotation (m : Nat) : String :=
  let ds := Nat.toDigits 10 m
  let sig := (ds.reverse.dropWhile (fun c => c = '0')).reverse
  match sig with
  | [] => "0e+" ++ Nat.repr (ds.length - 1)
  | d :: rest =>
      (if rest.isEmpty then String.mk [d]
        else String.mk [d] ++ "." ++ String.mk rest) ++ "e+" ++ Nat.repr (ds.length - 1)

/-- String(n) for an integer JS number, following the ECMAScript ToString
case split: plain decimal digits for values below 10^21, exponential
notation from 10^21 on. -/
def jsNumeral (m : Nat) : String :=
  if m < 10 ^ 21 then Nat.repr m else jsExpNotation m

/-- sanitizeS3Key: Math.floor(Math.abs(fileId)) rendered by String() inside
a fixed key template.  The input is a rational, standing for an arbitrary
finite JS number; the non-finite inputs NaN and Infinity are outside the
model. -/
def sanitizeS3Key (fileId : ℚ) : String :=
  "downloads/" ++ jsNumeral (Int.toNat (Int.floor (abs fileId))) ++ ".zip"

/-- Result shape of checkS3Availability. -/
structure AvailabilityResult where
  available : Bool
  s3Key : Option String
  size : Option Nat
deriving DecidableEq

/-- checkS3Availability: mock mode answers by divisibility by 7 with a
random size; real mode maps a HeadObject success to available and any
failure to the negative result. -/
def checkS3Availability (env : S3Env) (o : S3Oracle) (fileId : Int) :
    AvailabilityResult :=
  let s3Key := sanitizeS3Key (fileId : ℚ)
  if env.bucketConfigured = false then
    let available := fileId % 7 == 0
    { available := available
      s3Key := if available then some s3Key else none
      size := if available then some (o.sizeRand + 1000) else none }
  else
    match o.headResult with
    | some contentLength =>
        { available := true, s3Key := some s3Key, size := contentLength }
    | none => { available := false, s3Key := none, size := none }

/-- generatePresignedUrl: mock mode always mints a fake URL; real mode
returns the getSignedUrl outcome, which is null when signing fails. -/
def generatePresignedUrl (env : S3Env) (o : S3Oracle) (s3Key : String) :
    Option String :=
  if env.bucketConfigured = false then
    some ("https://storage.example.com/" ++ s3Key ++ "?token=" ++ o.urlToken)
  else
    o.signResult

/-- The initial record written by the initiate handler. -/
def initialRecord (fileId : Int) (now : Nat) : JobResult :=
  { file_id := fileId
    status := JobStatus.queued
    progress := 0
    downloadUrl := none
    size := none
    processingTimeMs := none
    message := "Job queued for processing"
    createdAt := now
    updatedAt := now }

/-- The record written by the worker when it transitions to processing.
Note that the TS code fills createdAt with a fresh new Date() here. -/
def processingRecord (fileId : Int) (now : Nat) : JobResult :=
  { file_id := fileId
    status := JobStatus.processing
    progress := 0
    downloadUrl := none
    size := none
    processingTimeMs := none
    message := "Processing download..."
    createdAt := now
    updatedAt := now }

/-- One firing of the progress interval: the counter is bumped to
min(progress + 10, 90) unconditionally, then the store record is re-read
and overwritten only if its status is still processing.  The read, guard
and write are modelled as one atomic step. -/
def tickStep (s : Store) (jobId : String) (progress : Nat) (now : Nat) :
    Store × Nat :=
  let p := min (progress + 10) 90
  match getJob s jobId with
  | some r =>
      if r.status = JobStatus.processing then
        (setJob s jobId { r with progress := p, updatedAt := now }, p)
      else
        (s, p)
  | none => (s, p)

/-- All firings of the progress interval during one worker run, given the
list of firing times. -/
def runTicks (s : Store) (jobId : String) (progress : Nat) :
    List Nat → Store × Nat
  | [] => (s, progress)
  | t :: ts =>
      let sp := tickStep s jobId progress t
      runTicks sp.1 jobId sp.2 ts

/-- processDownloadJob: transition to processing, run the progress ticks,
probe availability, then perform the single terminal write.  tStart is the
worker start time, tEnd the time of the terminal write. -/
def processDownloadJob (env : S3Env) (o : S3Oracle) (s : Store)
    (jobId : String) (fileId : Int) (tStart : Nat) (tickTimes : List Nat)
    (tEnd : Nat) : Store :=
  let s1 := setJob s jobId (processingRecord fileId tStart)
  let s2 := (runTicks s1 jobId 0 tickTimes).1
  let s3Result := checkS3Availability env o fileId
  let processingTimeMs := tEnd - tStart
  match s3Result.available, s3Result.s3Key with
  | true, some key =>
      let downloadUrl := generatePresignedUrl env o key
      setJob s2 jobId
        { file_id := fileId
          status := JobStatus.completed
          progress := 100
          downloadUrl := downloadUrl
          size := s3Result.size
          processingTimeMs := some processingTimeMs
          message := "Download ready after " ++ toString processingTimeMs ++ " ms"
          createdAt := (Option.map (fun r => r.createdAt) (getJob s2 jobId)).getD tEnd
          updatedAt := tEnd }
  | _, _ =>
      setJob s2 jobId
        { file_id := fileId
          status := JobStatus.failed
          progress := 100
          downloadUrl := none
          size := none
          processingTimeMs := some processingTimeMs
          message := "File not found after " ++ toString processingTimeMs ++ " ms"
          createdAt := (Option.map (fun r => r.createdAt) (getJob s2 jobId)).getD tEnd
          updatedAt := tEnd }

/-- The response body of the initiate route. -/
structure InitiateResponse where
  jobId : String
  status : JobStatus
  totalFileIds : Nat
deriving DecidableEq

/-- The Zod bound on a single file id: int, min 10000, max 100000000. -/
def validFileId (id : Int) : Bool :=
  decide (10000 ≤ id) && decide (id ≤ 100000000)

/-- The Zod bound on the request body: every id in range, batch size
between 1 and 1000. -/
def validInitiateRequest (file_ids : List Int) : Bool :=
  file_ids.all validFileId && decide (1 ≤ file_ids.length)
    && decide (file_ids.length ≤ 1000)

/-- The initiate route: schema validation followed by the handler, which
writes the initial queued record for the first id of the batch, enqueues
one work item, and returns immediately.  jobId stands for the fresh
crypto.randomUUID value; the second component is the work queue. -/
def downloadInitiate (s : Store) (q : List (String × Int)) (jobId : String)
    (file_ids : List Int) (now : Nat) :
    Store × List (String × Int) × Except String InitiateResponse :=
  if validInitiateRequest file_ids = true then
    let fileId := file_ids.headI
    (setJob s jobId (initialRecord fileId now), q ++ [(jobId, fileId)],
      Except.ok
        { jobId := jobId, status := JobStatus.queued
          totalFileIds := file_ids.length })
  else
    (s, q, Except.error "Invalid request")

/-- The response body of the status route: the jobId echoed next to the
spread record snapshot. -/
structure StatusView where
  jobId : String
  record : JobResult
deriving DecidableEq

/-- The status route: a pure read that returns the snapshot or a not-found
error, together with the untouched store. -/
def jobStatusRoute (s : Store) (jobId : String) :
    Store × Except String StatusView :=
  match getJob s jobId with
  | none => (s, Except.error ("Job " ++ jobId ++ " not found"))
  | some r => (s, Except.ok { jobId := jobId, record := r })

/-- One full submission-plus-worker run for a job: the initiate route at
time t0 followed by the worker body starting at tStart. -/
def lifecycle (env : S3Env) (o : S3Oracle) (s : Store)
    (q : List (String × Int)) (jobId : String) (file_ids : List Int)
    (t0 tStart : Nat) (tickTimes : List Nat) (tEnd : Nat) : Store :=
  let sub := downloadInitiate s q jobId file_ids t0
  processDownloadJob env o sub.1 jobId file_ids.headI tStart tickTimes tEnd

/-- The record stored by the terminal write of the worker, as a function of
the probe outcome; createdAt is the value re-read from the store just
before the write (the getD fallback in processDownloadJob). -/
def terminalRecord (env : S3Env) (o : S3Oracle) (fileId : Int)
    (createdAt tStart tEnd : Nat) : JobResult :=
  let s3Result := checkS3Availability env o fileId
  let processingTimeMs := tEnd - tStart
  match s3Result.available, s3Result.s3Key with
  | true, some key =>
      { file_id := fileId
        status := JobStatus.completed
        progress := 100
        downloadUrl := generatePresignedUrl env o key
        size := s3Result.size
        processingTimeMs := some processingTimeMs
        message := "Download ready after " ++ toString processingTimeMs ++ " ms"
        createdAt := createdAt
        updatedAt := tEnd }
  | _, _ =>
      { file_id := fileId
        status := JobStatus.failed
        progress := 100
        downloadUrl := none
        size := none
        processingTimeMs := some processingTimeMs
        message := "File not found after " ++ toString processingTimeMs ++ " ms"
        createdAt := createdAt
        updatedAt := tEnd }

/-- The chronological list of records written by the progress ticks of one
worker run, assuming the stored record stays in processing status: each
tick overwrites the previous record with the bumped counter value and a
fresh updatedAt. -/
def tickRecords (r : JobResult) (p : Nat) : List Nat → List JobResult
  | [] => []
  | t :: ts =>
      let p2 := min (p + 10) 90
      let r2 := { r with progress := p2, updatedAt := t }
      r2 :: tickRecords r2 p2 ts

/-- Rank of a status along the lifecycle order
queued before processing before terminal. -/
def statusRank : JobStatus → Nat
  | JobStatus.queued => 0
  | JobStatus.processing => 1
  | JobStatus.completed => 2
  | JobStatus.failed => 2

/-! Basic store lemmas. -/

theorem getJob_setJob_self (s : Store) (j : String) (r : JobResult) :
    getJob (setJob s j r) j = some r := by
  simp [getJob, setJob, List.find?_cons]

theorem writes_setJob_self (s : Store) (j : String) (r : JobResult) :
    writes (setJob s j r) j = r :: writes s j := by
  simp [writes, setJob, List.filter_cons]

theorem writes_append (l s : Store) (j : String) :
    writes (l ++ s) j = writes l j ++ writes s j := by
  simp [writes, List.filter_append]

theorem writes_map_pair (l : List JobResult) (j : String) :
    writes (l.map (fun x => (j, x))) j = l := by
  induction l with
  | nil => rfl
  | cons a t ih => simp [writes, List.filter_cons] at ih ⊢; exact ih

theorem getJob_eq_head (s : Store) (j : String) :
    getJob s j = (writes s j).head? := by
  induction s with
  | nil => rfl
  | cons a t ih =>
    by_cases h : (a.1 == j) = true
    · simp [getJob, writes, List.find?_cons, List.filter_cons, h]
    · have h2 : (a.1 == j) = false := by
        cases hb : (a.1 == j) with
        | true => exact absurd hb h
        | false => rfl
      simp only [getJob, writes, List.find?_cons, List.filter_cons, h2,
        Bool.false_eq_true, if_false, cond_false] at ih ⊢
      exact ih

/-! Tick-trace lemmas. -/

theorem tickRecords_fields (ts : List Nat) :
    ∀ (r : JobResult) (p : Nat), ∀ x ∈ tickRecords r p ts,
      x.status = r.status ∧ x.downloadUrl = r.downloadUrl ∧
      x.size = r.size ∧ x.processingTimeMs = r.processingTimeMs ∧
      x.createdAt = r.createdAt ∧ x.file_id = r.file_id := by
  induction ts with
  | nil => intro r p x hx; simp [tickRecords] at hx
  | cons t ts ih =>
    intro r p x hx
    simp only [tickRecords, List.mem_cons] at hx
    rcases hx with rfl | hx
    · simp
    · have h := ih { r with progress := min (p + 10) 90, updatedAt := t }
        (min (p + 10) 90) x hx
      simpa using h

theorem tickRecords_progress_bounds (ts : List Nat) :
    ∀ (r : JobResult) (p : Nat), p ≤ 90 → ∀ x ∈ tickRecords r p ts,
      p ≤ x.progress ∧ x.progress ≤ 90 := by
  induction ts with
  | nil => intro r p hp x hx; simp [tickRecords] at hx
  | cons t ts ih =>
    intro r p hp x hx
    simp only [tickRecords, List.mem_cons] at hx
    rcases hx with rfl | hx
    · constructor
      · simp; omega
      · simp
    · have h := ih { r with progress := min (p + 10) 90, updatedAt := t }
        (min (p + 10) 90) (by omega) x hx
      omega

theorem tickRecords_progress_pairwise (ts : List Nat) :
    ∀ (r : JobResult) (p : Nat), p ≤ 90 →
      List.Pairwise (fun a b => a.progress ≤ b.progress) (tickRecords r p ts) := by
  induction ts with
  | nil => intro r p hp; simp [tickRecords]
  | cons t ts ih =>
    intro r p hp
    simp only [tickRecords]
    constructor
    · intro x hx
      have h := tickRecords_progress_bounds ts
        { r with progress := min (p + 10) 90, updatedAt := t }
        (min (p + 10) 90) (by omega) x hx
      simp only
      omega
    · exact ih _ _ (by omega)

theorem runTicks_store (jobId : String) (ts : List Nat) :
    ∀ (s : Store) (r : JobResult), getJob s jobId = some r →
      r.status = JobStatus.processing →
      (runTicks s jobId r.progress ts).1 =
        ((tickRecords r r.progress ts).map (fun x => (jobId, x))).reverse ++ s := by
  induction ts with
  | nil => intro s r hg hst; simp [runTicks, tickRecords]
  | cons t ts ih =>
    intro s r hg hst
    have hstep : tickStep s jobId r.progress t =
        (setJob s jobId
          { r with progress := min (r.progress + 10) 90, updatedAt := t },
          min (r.progress + 10) 90) := by
      simp [tickStep, hg, hst]
    have hg2 : getJob
        (setJob s jobId
          { r with progress := min (r.progress + 10) 90, updatedAt := t }) jobId =
        some { r with progress := min (r.progress + 10) 90, updatedAt := t } :=
      getJob_setJob_self ..
    have hst2 : ({ r with progress := min (r.progress + 10) 90, updatedAt := t } : JobResult).status = JobStatus.processing := hst
    have hrec := ih (setJob s jobId
        { r with progress := min (r.progress + 10) 90, updatedAt := t })
      { r with progress := min (r.progress + 10) 90, updatedAt := t } hg2 hst2
    simp only [runTicks, hstep]
    rw [show ({ r with progress := min (r.progress + 10) 90, updatedAt := t } : JobResult).progress = min (r.progress + 10) 90 from rfl] at hrec
    rw [hrec]
    simp [tickRecords, setJob, List.append_assoc]

/-! Worker structural lemmas. -/

theorem processDownloadJob_eq (env : S3Env) (o : S3Oracle) (s : Store) (jobId : String) (fileId : Int) (tStart : Nat) (tickTimes : List Nat) (tEnd : Nat) :
    processDownloadJob env o s jobId fileId tStart tickTimes tEnd =
      setJob ((runTicks (setJob s jobId (processingRecord fileId tStart)) jobId 0 tickTimes).1) jobId
        (terminalRecord env o fileId
          ((Option.map (fun r => r.createdAt) (getJob ((runTicks (setJob s jobId (processingRecord fileId tStart)) jobId 0 tickTimes).1) jobId)).getD tEnd)
          tStart tEnd) := by
  cases h : checkS3Availability env o fileId with
  | mk av k sz =>
    simp only [processDownloadJob, terminalRecord, h]
    cases av <;> cases k <;> rfl

theorem writes_after_ticks (s : Store) (jobId : String) (fileId : Int) (tStart : Nat) (tickTimes : List Nat) :
    writes ((runTicks (setJob s jobId (processingRecord fileId tStart)) jobId 0 tickTimes).1) jobId =
      (tickRecords (processingRecord fileId tStart) 0 tickTimes).reverse ++
        processingRecord fileId tStart :: writes s jobId := by
  have h := runTicks_store jobId tickTimes
    (setJob s jobId (processingRecord fileId tStart))
    (processingRecord fileId tStart) (getJob_setJob_self ..) rfl
  rw [show (processingRecord fileId tStart).progress = 0 from rfl] at h
  rw [h, writes_append]
  rw [show ((tickRecords (processingRecord fileId tStart) 0 tickTimes).map (fun x => (jobId, x))).reverse = ((tickRecords (processingRecord fileId tStart) 0 tickTimes).reverse.map (fun x => (jobId, x))) from (List.map_reverse ..).symm]
  rw [writes_map_pair, writes_setJob_self]

theorem getJob_after_ticks (s : Store) (jobId : String) (fileId : Int) (tStart : Nat) (tickTimes : List Nat) :
    ∃ rcur, getJob ((runTicks (setJob s jobId (processingRecord fileId tStart)) jobId 0 tickTimes).1) jobId = some rcur ∧
      rcur.createdAt = tStart ∧ rcur.status = JobStatus.processing := by
  rw [getJob_eq_head, writes_after_ticks]
  cases htr : (tickRecords (processingRecord fileId tStart) 0 tickTimes).reverse with
  | nil => exact ⟨processingRecord fileId tStart, rfl, rfl, rfl⟩
  | cons a l =>
    refine ⟨a, rfl, ?_, ?_⟩
    · have ha : a ∈ tickRecords (processingRecord fileId tStart) 0 tickTimes := by
        rw [← List.mem_reverse, htr]
        exact List.mem_cons_self ..
      exact (tickRecords_fields tickTimes (processingRecord fileId tStart) 0 a ha).2.2.2.2.1
    · have ha : a ∈ tickRecords (processingRecord fileId tStart) 0 tickTimes := by
        rw [← List.mem_reverse, htr]
        exact List.mem_cons_self ..
      exact (tickRecords_fields tickTimes (processingRecord fileId tStart) 0 a ha).1

theorem processDownloadJob_writes (env : S3Env) (o : S3Oracle) (s : Store) (jobId : String) (fileId : Int) (tStart : Nat) (tickTimes : List Nat) (tEnd : Nat) :
    writes (processDownloadJob env o s jobId fileId tStart tickTimes tEnd) jobId =
      terminalRecord env o fileId tStart tStart tEnd ::
        ((tickRecords (processingRecord fileId tStart) 0 tickTimes).reverse ++
          processingRecord fileId tStart :: writes s jobId) := by
  obtain ⟨rcur, hcur, hC, _⟩ := getJob_after_ticks s jobId fileId tStart tickTimes
  rw [processDownloadJob_eq, hcur]
  simp only [Option.map_some', Option.getD_some, hC]
  rw [writes_setJob_self, writes_after_ticks]

/-! Terminal-record field lemmas. -/

theorem terminalRecord_createdAt (env : S3Env) (o : S3Oracle) (fileId : Int) (c t1 t2 : Nat) :
    (terminalRecord env o fileId c t1 t2).createdAt = c := by
  cases h : checkS3Availability env o fileId with
  | mk av k sz =>
    simp only [terminalRecord, h]
    cases av <;> cases k <;> rfl

theorem terminalRecord_progress (env : S3Env) (o : S3Oracle) (fileId : Int) (c t1 t2 : Nat) :
    (terminalRecord env o fileId c t1 t2).progress = 100 := by
  cases h : checkS3Availability env o fileId with
  | mk av k sz =>
    simp only [terminalRecord, h]
    cases av <;> cases k <;> rfl

theorem terminalRecord_rank (env : S3Env) (o : S3Oracle) (fileId : Int) (c t1 t2 : Nat) :
    statusRank (terminalRecord env o fileId c t1 t2).status = 2 := by
  cases h : checkS3Availability env o fileId with
  | mk av k sz =>
    simp only [terminalRecord, h]
    cases av <;> cases k <;> rfl

theorem terminalRecord_url_none (env : S3Env) (o : S3Oracle) (fileId : Int) (c t1 t2 : Nat) :
    (terminalRecord env o fileId c t1 t2).status ≠ JobStatus.completed →
      (terminalRecord env o fileId c t1 t2).downloadUrl = none := by
  cases h : checkS3Availability env o fileId with
  | mk av k sz =>
    simp only [terminalRecord, h]
    cases av <;> cases k <;> intro hne <;> first | rfl | exact absurd rfl hne

theorem terminalRecord_mock_pos (o : S3Oracle) (fileId : Int) (c t1 t2 : Nat) (h7 : fileId % 7 = 0) :
    (terminalRecord { bucketConfigured := false } o fileId c t1 t2).status = JobStatus.completed ∧
    (terminalRecord { bucketConfigured := false } o fileId c t1 t2).downloadUrl =
      some ("https://storage.example.com/" ++ sanitizeS3Key (fileId : ℚ) ++ "?token=" ++ o.urlToken) ∧
    (terminalRecord { bucketConfigured := false } o fileId c t1 t2).size = some (o.sizeRand + 1000) := by
  have hav : checkS3Availability { bucketConfigured := false } o fileId =
      { available := true, s3Key := some (sanitizeS3Key (fileId : ℚ)), size := some (o.sizeRand + 1000) } := by
    simp [checkS3Availability, h7]
  simp [terminalRecord, hav, generatePresignedUrl]

theorem terminalRecord_mock_neg (o : S3Oracle) (fileId : Int) (c t1 t2 : Nat) (h7 : ¬ fileId % 7 = 0) :
    (terminalRecord { bucketConfigured := false } o fileId c t1 t2).status = JobStatus.failed ∧
    (terminalRecord { bucketConfigured := false } o fileId c t1 t2).downloadUrl = none ∧
    (terminalRecord { bucketConfigured := false } o fileId c t1 t2).size = none := by
  have hav : checkS3Availability { bucketConfigured := false } o fileId =
      { available := false, s3Key := none, size := none } := by
    simp [checkS3Availability, h7]
  simp [terminalRecord, hav]

/-! Record field lemmas and the lifecycle write history. -/

theorem initialRecord_progress (f : Int) (n : Nat) : (initialRecord f n).progress = 0 := rfl

theorem initialRecord_status (f : Int) (n : Nat) : (initialRecord f n).status = JobStatus.queued := rfl

theorem initialRecord_downloadUrl (f : Int) (n : Nat) : (initialRecord f n).downloadUrl = none := rfl

theorem initialRecord_createdAt (f : Int) (n : Nat) : (initialRecord f n).createdAt = n := rfl

theorem processingRecord_progress (f : Int) (n : Nat) : (processingRecord f n).progress = 0 := rfl

theorem processingRecord_status (f : Int) (n : Nat) : (processingRecord f n).status = JobStatus.processing := rfl

theorem processingRecord_downloadUrl (f : Int) (n : Nat) : (processingRecord f n).downloadUrl = none := rfl

theorem processingRecord_createdAt (f : Int) (n : Nat) : (processingRecord f n).createdAt = n := rfl

theorem downloadInitiate_store_of_valid (s : Store) (q : List (String × Int)) (jobId : String) (file_ids : List Int) (now : Nat) (hval : validInitiateRequest file_ids = true) :
    (downloadInitiate s q jobId file_ids now).1 = setJob s jobId (initialRecord file_ids.headI now) := by
  simp [downloadInitiate, hval]

theorem lifecycle_writes_eq (env : S3Env) (o : S3Oracle) (s : Store) (q : List (String × Int)) (jobId : String) (file_ids : List Int) (t0 tStart : Nat) (tickTimes : List Nat) (tEnd : Nat)
    (hval : validInitiateRequest file_ids = true)
    (hfresh : writes s jobId = []) :
    writes (lifecycle env o s q jobId file_ids t0 tStart tickTimes tEnd) jobId =
      terminalRecord env o file_ids.headI tStart tStart tEnd ::
        ((tickRecords (processingRecord file_ids.headI tStart) 0 tickTimes).reverse ++
          [processingRecord file_ids.headI tStart, initialRecord file_ids.headI t0]) := by
  simp only [lifecycle]
  rw [downloadInitiate_store_of_valid s q jobId file_ids t0 hval]
  rw [processDownloadJob_writes, writes_setJob_self, hfresh]

theorem lifecycle_writes_chron (env : S3Env) (o : S3Oracle) (s : Store) (q : List (String × Int)) (jobId : String) (file_ids : List Int) (t0 tStart : Nat) (tickTimes : List Nat) (tEnd : Nat)
    (hval : validInitiateRequest file_ids = true)
    (hfresh : writes s jobId = []) :
    (writes (lifecycle env o s q jobId file_ids t0 tStart tickTimes tEnd) jobId).reverse =
      initialRecord file_ids.headI t0 :: processingRecord file_ids.headI tStart ::
        (tickRecords (processingRecord file_ids.headI tStart) 0 tickTimes ++
          [terminalRecord env o file_ids.headI tStart tStart tEnd]) := by
  rw [lifecycle_writes_eq env o s q jobId file_ids t0 tStart tickTimes tEnd hval hfresh]
  simp

/-! Claim theorems. -/

/-- Claim C3: whenever the progress-tick callback fires and the stored
record for the job is terminal (completed or failed) or absent, the guard
in the tick rejects the write and the store is left unchanged. -/
theorem tick_preserves_terminal (s : Store) (jobId : String) (p t : Nat)
    (h : ∀ r, getJob s jobId = some r → (r.status = JobStatus.completed ∨ r.status = JobStatus.failed)) :
    (tickStep s jobId p t).1 = s := by
  cases hg : getJob s jobId with
  | none => simp [tickStep, hg]
  | some r =>
    rcases h r hg with hc | hc <;> simp [tickStep, hg, hc]

/-- Witness for C3: a store holding a completed record is untouched by a
tick. -/
theorem tick_preserves_terminal_witness :
    (tickStep [("j", { file_id := 70000, status := JobStatus.completed, progress := 100, downloadUrl := some "u", size := some 1, processingTimeMs := some 1, message := "m", createdAt := 0, updatedAt := 1 })] "j" 0 5).1 =
      [("j", { file_id := 70000, status := JobStatus.completed, progress := 100, downloadUrl := some "u", size := some 1, processingTimeMs := some 1, message := "m", createdAt := 0, updatedAt := 1 })] := by
  apply tick_preserves_terminal
  intro r hr
  left
  have h3 : getJob [("j", { file_id := 70000, status := JobStatus.completed, progress := 100, downloadUrl := some "u", size := some 1, processingTimeMs := some 1, message := "m", createdAt := 0, updatedAt := 1 })] "j" = some { file_id := 70000, status := JobStatus.completed, progress := 100, downloadUrl := some "u", size := some 1, processingTimeMs := some 1, message := "m", createdAt := 0, updatedAt := 1 } := rfl
  have h4 := Option.some.inj (h3.symm.trans hr)
  exact h4 ▸ rfl

/-- Claim C4: on a valid batch with a fresh job identifier, the initiate
route writes exactly one record, a queued one with progress 0, null
downloadUrl and createdAt = updatedAt = now, appends exactly one work item
carrying only the first identifier, and answers with the jobId, status
queued and the full batch length; no processing happens in the route. -/
theorem initiate_creates_queued_job (s : Store) (q : List (String × Int)) (jobId : String) (file_ids : List Int) (now : Nat)
    (hval : validInitiateRequest file_ids = true)
    (hfresh : writes s jobId = []) :
    downloadInitiate s q jobId file_ids now =
      (setJob s jobId (initialRecord file_ids.headI now), q ++ [(jobId, file_ids.headI)],
        Except.ok { jobId := jobId, status := JobStatus.queued, totalFileIds := file_ids.length }) ∧
    writes (downloadInitiate s q jobId file_ids now).1 jobId = [initialRecord file_ids.headI now] ∧
    (initialRecord file_ids.headI now).status = JobStatus.queued ∧
    (initialRecord file_ids.headI now).progress = 0 ∧
    (initialRecord file_ids.headI now).downloadUrl = none ∧
    (initialRecord file_ids.headI now).createdAt = now ∧
    (initialRecord file_ids.headI now).updatedAt = now := by
  refine ⟨by simp [downloadInitiate, hval], ?_, rfl, rfl, rfl, rfl, rfl⟩
  rw [downloadInitiate_store_of_valid s q jobId file_ids now hval]
  rw [writes_setJob_self, hfresh]

/-- Witness for C4 at a concrete valid two-id batch. -/
theorem initiate_creates_queued_job_witness :
    downloadInitiate [] [] "j" [70000, 70001] 3 =
      (setJob [] "j" (initialRecord 70000 3), [("j", 70000)],
        Except.ok { jobId := "j", status := JobStatus.queued, totalFileIds := 2 }) ∧
    writes (downloadInitiate [] [] "j" [70000, 70001] 3).1 "j" = [initialRecord 70000 3] := by
  have h := initiate_creates_queued_job [] [] "j" [70000, 70001] 3 (by decide) rfl
  exact ⟨h.1, h.2.1⟩

/-- Claim C8: a submission containing any identifier outside the bound
10000 to 100000000 fails validation synchronously: the route answers with
an error and neither the store nor the queue changes. -/
theorem invalid_id_rejected_no_effect (s : Store) (q : List (String × Int)) (jobId : String) (file_ids : List Int) (now : Nat) (id : Int)
    (hmem : id ∈ file_ids) (hbad : id < 10000 ∨ 100000000 < id) :
    downloadInitiate s q jobId file_ids now = (s, q, Except.error "Invalid request") := by
  have hv : validFileId id = false := by
    rcases hbad with h | h
    · have h2 : ¬ (10000 ≤ id) := by omega
      simp [validFileId, h2]
    · have h2 : ¬ (id ≤ 100000000) := by omega
      simp [validFileId, h2]
  have hreq : ¬ validInitiateRequest file_ids = true := by
    simp only [validInitiateRequest, Bool.and_eq_true, List.all_eq_true]
    rintro ⟨⟨hall, _⟩, _⟩
    have h3 := hall id hmem
    rw [hv] at h3
    exact Bool.false_ne_true h3
  simp [downloadInitiate, hreq]

/-- Witness for C8: the spec example, fileId 9999. -/
theorem invalid_id_rejected_no_effect_witness :
    downloadInitiate [] [] "j" [9999] 0 = ([], [], Except.error "Invalid request") :=
  invalid_id_rejected_no_effect [] [] "j" [9999] 0 9999 (by decide) (by decide)

/-- Claim C9: the status route returns the store untouched in every case;
an absent jobId yields the not-found error and a present one yields the
snapshot with the jobId echoed. -/
theorem status_read_pure (s : Store) (jobId : String) :
    (jobStatusRoute s jobId).1 = s ∧
    (getJob s jobId = none → (jobStatusRoute s jobId).2 = Except.error ("Job " ++ jobId ++ " not found")) ∧
    (∀ r, getJob s jobId = some r → (jobStatusRoute s jobId).2 = Except.ok { jobId := jobId, record := r }) := by
  cases h : getJob s jobId with
  | none => refine ⟨?_, ?_, ?_⟩ <;> simp [jobStatusRoute, h]
  | some r => refine ⟨?_, ?_, ?_⟩ <;> simp [jobStatusRoute, h]

/-- Witness for C9: a never-submitted jobId on a concrete store. -/
theorem status_read_pure_witness :
    (jobStatusRoute [("a", initialRecord 70000 0)] "b").1 = [("a", initialRecord 70000 0)] ∧
    (jobStatusRoute [("a", initialRecord 70000 0)] "b").2 = Except.error "Job b not found" := by
  have h := status_read_pure [("a", initialRecord 70000 0)] "b"
  exact ⟨h.1, h.2.1 (by decide)⟩

/-- Claim C5: over one job lifetime the stored progress values, in write
order, are monotonically non-decreasing: 0 at submission, 0 at the
processing transition, min(previous + 10, 90) at each tick and 100 at the
single terminal write. -/
theorem progress_monotone_lifecycle (env : S3Env) (o : S3Oracle) (s : Store) (q : List (String × Int)) (jobId : String) (file_ids : List Int) (t0 tStart : Nat) (tickTimes : List Nat) (tEnd : Nat)
    (hval : validInitiateRequest file_ids = true)
    (hfresh : writes s jobId = []) :
    List.Pairwise (fun a b => a ≤ b)
      ((writes (lifecycle env o s q jobId file_ids t0 tStart tickTimes tEnd) jobId).reverse.map (fun r => r.progress)) := by
  rw [lifecycle_writes_chron env o s q jobId file_ids t0 tStart tickTimes tEnd hval hfresh]
  simp only [List.map_cons, List.map_append, List.map_nil, initialRecord_progress, processingRecord_progress, terminalRecord_progress]
  have hbd := tickRecords_progress_bounds tickTimes (processingRecord file_ids.headI tStart) 0 (by omega)
  have hpw := tickRecords_progress_pairwise tickTimes (processingRecord file_ids.headI tStart) 0 (by omega)
  constructor
  · intro b _
    exact Nat.zero_le b
  constructor
  · intro b _
    exact Nat.zero_le b
  rw [List.pairwise_append]
  refine ⟨List.pairwise_map.mpr hpw, by simp, ?_⟩
  intro x hx y hy
  obtain ⟨a, ha, rfl⟩ := List.mem_map.mp hx
  have h90 := (hbd a ha).2
  simp only [List.mem_singleton] at hy
  subst hy
  omega

/-- Witness for C5: the full lifecycle of a fresh mock-mode job with three
tick firings. -/
theorem progress_monotone_lifecycle_witness :
    List.Pairwise (fun a b => a ≤ b)
      ((writes (lifecycle { bucketConfigured := false } { headResult := none, signResult := none, sizeRand := 0, urlToken := "t" } [] [] "j" [70000] 0 1 [2, 3, 4] 5) "j").reverse.map (fun r => r.progress)) :=
  progress_monotone_lifecycle { bucketConfigured := false } { headResult := none, signResult := none, sizeRand := 0, urlToken := "t" } [] [] "j" [70000] 0 1 [2, 3, 4] 5 (by decide) rfl

/-- Claim C2 amended: within a single execution of the worker body on a
freshly submitted job, the stored status never regresses along the order
queued, processing, terminal.  The claim as stated also covers a
redelivered second execution of the same job; the counterexample shows
that such an execution starts with an unconditional processing write that
does regress a terminal record. -/
theorem status_monotone_single_execution (env : S3Env) (o : S3Oracle) (s : Store) (q : List (String × Int)) (jobId : String) (file_ids : List Int) (t0 tStart : Nat) (tickTimes : List Nat) (tEnd : Nat)
    (hval : validInitiateRequest file_ids = true)
    (hfresh : writes s jobId = []) :
    List.Pairwise (fun a b => statusRank a ≤ statusRank b)
      ((writes (lifecycle env o s q jobId file_ids t0 tStart tickTimes tEnd) jobId).reverse.map (fun r => r.status)) := by
  rw [lifecycle_writes_chron env o s q jobId file_ids t0 tStart tickTimes tEnd hval hfresh]
  simp only [List.map_cons, List.map_append, List.map_nil, initialRecord_status, processingRecord_status]
  constructor
  · intro b _
    rw [show statusRank JobStatus.queued = 0 from rfl]
    exact Nat.zero_le _
  constructor
  · intro b hb
    rcases List.mem_append.mp hb with hb | hb
    · obtain ⟨a, ha, rfl⟩ := List.mem_map.mp hb
      rw [(tickRecords_fields tickTimes (processingRecord file_ids.headI tStart) 0 a ha).1, processingRecord_status]
    · simp only [List.mem_singleton] at hb
      subst hb
      rw [terminalRecord_rank, show statusRank JobStatus.processing = 1 from rfl]
      omega
  rw [List.pairwise_append]
  refine ⟨?_, by simp, ?_⟩
  · apply List.pairwise_of_forall_mem_list
    intro a ha b hb
    obtain ⟨a2, ha2, rfl⟩ := List.mem_map.mp ha
    obtain ⟨b2, hb2, rfl⟩ := List.mem_map.mp hb
    rw [(tickRecords_fields tickTimes (processingRecord file_ids.headI tStart) 0 a2 ha2).1,
      (tickRecords_fields tickTimes (processingRecord file_ids.headI tStart) 0 b2 hb2).1]
  · intro x hx y hy
    obtain ⟨a, ha, rfl⟩ := List.mem_map.mp hx
    simp only [List.mem_singleton] at hy
    subst hy
    rw [(tickRecords_fields tickTimes (processingRecord file_ids.headI tStart) 0 a ha).1, processingRecord_status,
      terminalRecord_rank, show statusRank JobStatus.processing = 1 from rfl]
    omega

/-- Witness for C2: the single-execution lifecycle of a fresh mock-mode
job with three tick firings. -/
theorem status_monotone_single_execution_witness :
    List.Pairwise (fun a b => statusRank a ≤ statusRank b)
      ((writes (lifecycle { bucketConfigured := false } { headResult := none, signResult := none, sizeRand := 0, urlToken := "t" } [] [] "j" [70000] 0 1 [2, 3, 4] 5) "j").reverse.map (fun r => r.status)) :=
  status_monotone_single_execution { bucketConfigured := false } { headResult := none, signResult := none, sizeRand := 0, urlToken := "t" } [] [] "j" [70000] 0 1 [2, 3, 4] 5 (by decide) rfl

/-- Claim C1 amended: every write with a status other than completed
stores a null downloadUrl, and in mock mode (no bucket configured) a
write stores a non-null downloadUrl exactly when its status is completed.
The claim as stated further asserts that every completed write stores a
non-null downloadUrl in every mode; the counterexample shows a completed
write storing null when URL issuance fails in real mode. -/
theorem downloadUrl_iff_completed_mock (env : S3Env) (o : S3Oracle) (s : Store) (q : List (String × Int)) (jobId : String) (file_ids : List Int) (t0 tStart : Nat) (tickTimes : List Nat) (tEnd : Nat)
    (hval : validInitiateRequest file_ids = true)
    (hfresh : writes s jobId = []) :
    ∀ r ∈ writes (lifecycle env o s q jobId file_ids t0 tStart tickTimes tEnd) jobId,
      (r.status ≠ JobStatus.completed → r.downloadUrl = none) ∧
      (env.bucketConfigured = false → (r.downloadUrl.isSome = true ↔ r.status = JobStatus.completed)) := by
  rw [lifecycle_writes_eq env o s q jobId file_ids t0 tStart tickTimes tEnd hval hfresh]
  intro r hr
  rcases List.mem_cons.mp hr with rfl | hr
  · constructor
    · exact terminalRecord_url_none env o file_ids.headI tStart tStart tEnd
    · intro hmock
      obtain ⟨b⟩ := env
      simp only at hmock
      subst hmock
      by_cases h7 : file_ids.headI % 7 = 0
      · obtain ⟨h1, h2, _⟩ := terminalRecord_mock_pos o file_ids.headI tStart tStart tEnd h7
        rw [h1, h2]
        simp
      · obtain ⟨h1, h2, _⟩ := terminalRecord_mock_neg o file_ids.headI tStart tStart tEnd h7
        rw [h1, h2]
        simp
  · have hfacts : r.downloadUrl = none ∧ r.status ≠ JobStatus.completed := by
      rcases List.mem_append.mp hr with hr | hr
      · rw [List.mem_reverse] at hr
        have hf := tickRecords_fields tickTimes (processingRecord file_ids.headI tStart) 0 r hr
        refine ⟨hf.2.1.trans (processingRecord_downloadUrl ..), ?_⟩
        rw [hf.1, processingRecord_status]
        exact fun hc => JobStatus.noConfusion hc
      · simp only [List.mem_cons, List.not_mem_nil, or_false] at hr
        rcases hr with rfl | rfl
        · exact ⟨rfl, fun hc => JobStatus.noConfusion hc⟩
        · exact ⟨rfl, fun hc => JobStatus.noConfusion hc⟩
    refine ⟨fun _ => hfacts.1, fun _ => ?_⟩
    rw [hfacts.1]
    simp only [Option.isSome_none, Bool.false_eq_true, false_iff]
    exact hfacts.2

/-- Witness for C1: the mock-mode lifecycle of a fresh job, with the
conclusion instantiated at the initial write. -/
theorem downloadUrl_iff_completed_mock_witness :
    (initialRecord 70000 0).downloadUrl = none :=
  (downloadUrl_iff_completed_mock { bucketConfigured := false } { headResult := none, signResult := none, sizeRand := 0, urlToken := "t" } [] [] "j" [70000] 0 1 [2] 5 (by decide) rfl
    (initialRecord 70000 0) (by decide)).1 (fun hc => JobStatus.noConfusion hc)

/-- Claim C7: in mock mode a submitted job whose first identifier is
divisible by 7 ends in a completed record with progress 100 and non-null
downloadUrl and size, while one not divisible by 7 ends in a failed record
with progress 100 and null downloadUrl and size. -/
theorem mock_mode_terminal_outcome (o : S3Oracle) (s : Store) (q : List (String × Int)) (jobId : String) (file_ids : List Int) (t0 tStart : Nat) (tickTimes : List Nat) (tEnd : Nat)
    (hval : validInitiateRequest file_ids = true)
    (hfresh : writes s jobId = []) :
    (file_ids.headI % 7 = 0 →
      (getJob (lifecycle { bucketConfigured := false } o s q jobId file_ids t0 tStart tickTimes tEnd) jobId).map
          (fun r => (r.status, r.progress, r.downloadUrl.isSome, r.size.isSome)) =
        some (JobStatus.completed, 100, true, true)) ∧
    (¬ file_ids.headI % 7 = 0 →
      (getJob (lifecycle { bucketConfigured := false } o s q jobId file_ids t0 tStart tickTimes tEnd) jobId).map
          (fun r => (r.status, r.progress, r.downloadUrl, r.size)) =
        some (JobStatus.failed, 100, none, none)) := by
  have hget : getJob (lifecycle { bucketConfigured := false } o s q jobId file_ids t0 tStart tickTimes tEnd) jobId =
      some (terminalRecord { bucketConfigured := false } o file_ids.headI tStart tStart tEnd) := by
    rw [getJob_eq_head, lifecycle_writes_eq { bucketConfigured := false } o s q jobId file_ids t0 tStart tickTimes tEnd hval hfresh]
    rfl
  constructor
  · intro h7
    obtain ⟨h1, h2, h3⟩ := terminalRecord_mock_pos o file_ids.headI tStart tStart tEnd h7
    rw [hget]
    simp [h1, h2, h3, terminalRecord_progress]
  · intro h7
    obtain ⟨h1, h2, h3⟩ := terminalRecord_mock_neg o file_ids.headI tStart tStart tEnd h7
    rw [hget]
    simp [h1, h2, h3, terminalRecord_progress]

/-- Witness for C7: fileId 70000, divisible by 7, reaches the completed
terminal record. -/
theorem mock_mode_terminal_outcome_witness :
    (getJob (lifecycle { bucketConfigured := false } { headResult := none, signResult := none, sizeRand := 0, urlToken := "t" } [] [] "j" [70000] 0 1 [2] 5) "j").map
        (fun r => (r.status, r.progress, r.downloadUrl.isSome, r.size.isSome)) =
      some (JobStatus.completed, 100, true, true) :=
  (mock_mode_terminal_outcome { headResult := none, signResult := none, sizeRand := 0, urlToken := "t" } [] [] "j" [70000] 0 1 [2] 5 (by decide) rfl).1 (by decide)

/-- Claim C6, evaluated at the failing input: a job submitted at time 0
whose worker starts at time 5.  The write history of createdAt values,
newest first, is 5, 5, 0 — the processing-transition write replaced the
submission-time createdAt 0 with the worker-start time 5, and the terminal
write then preserved the wrong value. -/
theorem createdAt_reset_by_processing_write :
    ((writes (lifecycle { bucketConfigured := false } { headResult := none, signResult := none, sizeRand := 0, urlToken := "t" } [] [] "j" [70000] 0 5 [] 9) "j").map (fun r => r.createdAt)) = [5, 5, 0] := by
  decide

/-- Counterexample for C1: in real mode with a successful availability
probe but a failed getSignedUrl call, the terminal write stores status
completed together with downloadUrl null, refuting the only-if direction
of the claim. -/
theorem completed_write_null_url_counterexample :
    ((getJob (lifecycle { bucketConfigured := true } { headResult := some (some 5), signResult := none, sizeRand := 0, urlToken := "t" } [] [] "j" [70000] 0 1 [] 2) "j").map (fun r => (r.status, r.downloadUrl))) =
      some (JobStatus.completed, none) := by
  decide

/-- Counterexample for C2: after a first execution completes the job, a
redelivered second execution of the worker body writes processing again.
The write history of statuses, newest first, shows a processing write
strictly newer than a completed write, so chronologically the status
sequence queued, processing, completed, processing, completed is not
monotone along the claimed order. -/
theorem redelivery_overwrites_terminal_counterexample :
    ((writes (processDownloadJob { bucketConfigured := false } { headResult := none, signResult := none, sizeRand := 0, urlToken := "t" } (lifecycle { bucketConfigured := false } { headResult := none, signResult := none, sizeRand := 0, urlToken := "t" } [] [] "j" [70000] 0 1 [] 2) "j" 70000 3 [] 4) "j").map (fun r => r.status)) =
      [JobStatus.completed, JobStatus.processing, JobStatus.completed, JobStatus.processing, JobStatus.queued] ∧
    ¬ List.Pairwise (fun a b => statusRank a ≤ statusRank b)
      ((writes (processDownloadJob { bucketConfigured := false } { headResult := none, signResult := none, sizeRand := 0, urlToken := "t" } (lifecycle { bucketConfigured := false } { headResult := none, signResult := none, sizeRand := 0, urlToken := "t" } [] [] "j" [70000] 0 1 [] 2) "j" 70000 3 [] 4) "j").reverse.map (fun r => r.status)) := by
  constructor
  · decide
  · decide

/-! Decimal-representation lemmas for the key sanitizer. -/

theorem digitChar_isDigit (m : Nat) (h : m < 10) : (Nat.digitChar m).isDigit = true := by
  interval_cases m <;> decide

theorem toDigitsCore_all_digits (fuel : Nat) :
    ∀ (n : Nat) (ds : List Char), (∀ c ∈ ds, c.isDigit = true) →
      ∀ c ∈ Nat.toDigitsCore 10 fuel n ds, c.isDigit = true := by
  induction fuel with
  | zero =>
    intro n ds h c hc
    exact h c hc
  | succ fuel ih =>
    intro n ds h c hc
    simp only [Nat.toDigitsCore] at hc
    have hd : (Nat.digitChar (n % 10)).isDigit = true :=
      digitChar_isDigit (n % 10) (Nat.mod_lt _ (by omega))
    by_cases h0 : n / 10 = 0
    · rw [if_pos h0] at hc
      rcases List.mem_cons.mp hc with rfl | hc2
      · exact hd
      · exact h c hc2
    · rw [if_neg h0] at hc
      refine ih (n / 10) (Nat.digitChar (n % 10) :: ds) ?_ c hc
      intro c2 hc2
      rcases List.mem_cons.mp hc2 with rfl | hc3
      · exact hd
      · exact h c2 hc3

theorem natRepr_all_digits (n : Nat) : ∀ c ∈ (Nat.repr n).data, c.isDigit = true := by
  intro c hc
  exact toDigitsCore_all_digits (n + 1) n [] (by intro c2 hc2; exact absurd hc2 (List.not_mem_nil c2)) c hc

/-- Claim C10 amended: for every finite numeric input, including negative
and fractional ones, whose floored absolute value is below 10^21 — the
ECMAScript bound under which String() renders plain decimal notation —
sanitizeS3Key returns exactly the string downloads/ then the decimal form
of floor of the absolute value then .zip, and every character of that
decimal part is a digit, so the key contains no user-controlled path
separator or traversal dot.  For finite inputs of 10^21 and above,
String() switches to exponential notation and the exact decimal shape
fails; see the counterexample at 1e21. -/
theorem sanitizeS3Key_shape_and_digits (x : ℚ) (hx : Int.toNat (Int.floor (abs x)) < 10 ^ 21) :
    sanitizeS3Key x = "downloads/" ++ Nat.repr (Int.toNat (Int.floor (abs x))) ++ ".zip" ∧
    ∀ c ∈ (Nat.repr (Int.toNat (Int.floor (abs x)))).data,
      c.isDigit = true ∧ c ≠ '/' ∧ c ≠ '.' := by
  constructor
  · unfold sanitizeS3Key jsNumeral
    rw [if_pos hx]
  · intro c hc
    have hd := natRepr_all_digits (Int.toNat (Int.floor (abs x))) c hc
    refine ⟨hd, ?_, ?_⟩
    · intro hEq
      rw [hEq] at hd
      exact absurd hd (by decide)
    · intro hEq
      rw [hEq] at hd
      exact absurd hd (by decide)

/-- Counterexample for C10: at the finite input 1e21 the program renders
the key with exponential notation, downloads/1e+21.zip, which is not the
decimal form of floor of the absolute value that the claim asserts for
every numeric input. -/
theorem sanitizeS3Key_exponential_counterexample :
    sanitizeS3Key ((10 ^ 21 : ℕ) : ℚ) = "downloads/1e+21.zip" ∧
    sanitizeS3Key ((10 ^ 21 : ℕ) : ℚ) ≠
      "downloads/" ++ Nat.repr (Int.toNat (Int.floor (abs ((10 ^ 21 : ℕ) : ℚ)))) ++ ".zip" := by
  have hm : Int.toNat (Int.floor (abs ((10 ^ 21 : ℕ) : ℚ))) = 10 ^ 21 := by
    rw [Nat.abs_cast, Int.floor_natCast, Int.toNat_natCast]
  have hjs : jsNumeral (10 ^ 21) = "1e+21" := by
    unfold jsNumeral
    rw [if_neg (Nat.lt_irrefl (10 ^ 21))]
    decide
  have h1 : sanitizeS3Key ((10 ^ 21 : ℕ) : ℚ) = "downloads/1e+21.zip" := by
    unfold sanitizeS3Key
    rw [hm, hjs]
    decide
  refine ⟨h1, ?_⟩
  rw [h1, hm]
  decide

/-- Witness for C10 at the concrete input -7/2, whose floored absolute
value 3 is below the decimal-notation bound. -/
theorem sanitizeS3Key_shape_and_digits_witness :
    sanitizeS3Key (-7 / 2) = "downloads/" ++ Nat.repr (Int.toNat (Int.floor (abs (-7 / 2 : ℚ)))) ++ ".zip" ∧
    ((Nat.repr (Int.toNat (Int.floor (abs (-7 / 2 : ℚ))))).data.all (fun c => c.isDigit)) = true := by
  have hfl : Int.floor (abs (-7 / 2 : ℚ)) = 3 := by
    have habs : abs (-7 / 2 : ℚ) = 7 / 2 := by
      rw [abs_of_nonpos (by norm_num)]
      norm_num
    rw [habs, Int.floor_eq_iff]
    norm_num
  have hx : Int.toNat (Int.floor (abs (-7 / 2 : ℚ))) < 10 ^ 21 := by
    rw [hfl]
    decide
  refine ⟨(sanitizeS3Key_shape_and_digits (-7 / 2) hx).1, ?_⟩
  rw [List.all_eq_true]
  intro c hc
  exact ((sanitizeS3Key_shape_and_digits (-7 / 2) hx).2 c hc).1

end Delineate
